import Mathlib

/-!
Shallow embedding of the core of the QLDB Node.js driver:

* `QldbHash.ts` — the hash-chain primitive (`_hashComparator`,
  `_joinHashesPairwise`, `dot`, the constructor size check), together with
  executable models of the external collaborators it calls
  (`crypto` SHA-256, ion-js `toBase64`);
* `Transaction.ts` — the transaction state machine (`_updateHash`,
  `_sendExecute`, `commit`, `abort`, `registerParameter`,
  `_findMissingParams`, `_internalClose`);
* the two `QldbSession.executeLambda` retry loops present in the source
  (the retry-limit loop of `src/src/QldbSession.ts` and the retry-policy
  loop), together with the error classification predicates of `Errors.ts`.

Bytes are modelled as `Nat` values below 256; byte arrays as `List Nat`.
-/

/-! ### SHA-256 (executable model of node `crypto` `createHash('sha256')`) -/

def mask32 : Nat := 4294967295

def add32 (a b : Nat) : Nat := (a + b) % 4294967296

def rotr32 (n x : Nat) : Nat := ((x >>> n) ||| (x <<< (32 - n))) &&& mask32

def ssig0 (x : Nat) : Nat := (rotr32 7 x) ^^^ (rotr32 18 x) ^^^ (x >>> 3)

def ssig1 (x : Nat) : Nat := (rotr32 17 x) ^^^ (rotr32 19 x) ^^^ (x >>> 10)

def bsig0 (x : Nat) : Nat := (rotr32 2 x) ^^^ (rotr32 13 x) ^^^ (rotr32 22 x)

def bsig1 (x : Nat) : Nat := (rotr32 6 x) ^^^ (rotr32 11 x) ^^^ (rotr32 25 x)

def chf (x y z : Nat) : Nat := (x &&& y) ^^^ ((x ^^^ mask32) &&& z)

def majf (x y z : Nat) : Nat := (x &&& y) ^^^ (x &&& z) ^^^ (y &&& z)

def shaK : List Nat :=
  [1116352408, 1899447441, 3049323471, 3921009573, 961987163, 1508970993,
   2453635748, 2870763221, 3624381080, 310598401, 607225278, 1426881987,
   1925078388, 2162078206, 2614888103, 3248222580, 3835390401, 4022224774,
   264347078, 604807628, 770255983, 1249150122, 1555081692, 1996064986,
   2554220882, 2821834349, 2952996808, 3210313671, 3336571891, 3584528711,
   113926993, 338241895, 666307205, 773529912, 1294757372, 1396182291,
   1695183700, 1986661051, 2177026350, 2456956037, 2730485921, 2820302411,
   3259730800, 3345764771, 3516065817, 3600352804, 4094571909, 275423344,
   430227734, 506948616, 659060556, 883997877, 958139571, 1322822218,
   1537002063, 1747873779, 1955562222, 2024104815, 2227730452, 2361852424,
   2428436474, 2756734187, 3204031479, 3329325298]

def shaH0 : List Nat :=
  [1779033703, 3144134277, 1013904242, 2773480762, 1359893119,
   2600822924, 528734635, 1541459225]

def lenBytes8 (n : Nat) : List Nat :=
  [(n >>> 56) &&& 255, (n >>> 48) &&& 255, (n >>> 40) &&& 255, (n >>> 32) &&& 255,
   (n >>> 24) &&& 255, (n >>> 16) &&& 255, (n >>> 8) &&& 255, n &&& 255]

def shaPad (msg : List Nat) : List Nat :=
  msg ++ [128] ++ List.replicate ((119 - msg.length % 64) % 64) 0 ++ lenBytes8 (8 * msg.length)

def bytesToWords : List Nat → List Nat
  | b0 :: b1 :: b2 :: b3 :: rest => ((b0 <<< 24) ||| (b1 <<< 16) ||| (b2 <<< 8) ||| b3) :: bytesToWords rest
  | _ => []

def scheduleRev (rws : List Nat) : Nat → List Nat
  | 0 => rws
  | n + 1 =>
    let w2 := rws.getD 1 0
    let w7 := rws.getD 6 0
    let w15 := rws.getD 14 0
    let w16 := rws.getD 15 0
    scheduleRev (((ssig1 w2 + w7 + ssig0 w15 + w16) % 4294967296) :: rws) n

structure ShaState where
  a : Nat
  b : Nat
  c : Nat
  d : Nat
  e : Nat
  f : Nat
  g : Nat
  h : Nat

def shaRound (s : ShaState) (kw : Nat × Nat) : ShaState :=
  let t1 := (s.h + bsig1 s.e + chf s.e s.f s.g + kw.1 + kw.2) % 4294967296
  let t2 := (bsig0 s.a + majf s.a s.b s.c) % 4294967296
  ⟨(t1 + t2) % 4294967296, s.a, s.b, s.c, (s.d + t1) % 4294967296, s.e, s.f, s.g⟩

def compressBlock (hs : List Nat) (block : List Nat) : List Nat :=
  let ws := (scheduleRev (bytesToWords block).reverse 48).reverse
  let kw := shaK.zip ws
  match hs with
  | [h0, h1, h2, h3, h4, h5, h6, h7] =>
    let s := kw.foldl shaRound ⟨h0, h1, h2, h3, h4, h5, h6, h7⟩
    [add32 h0 s.a, add32 h1 s.b, add32 h2 s.c, add32 h3 s.d,
     add32 h4 s.e, add32 h5 s.f, add32 h6 s.g, add32 h7 s.h]
  | _ => hs

def compressAll (fuel : Nat) (hs : List Nat) (l : List Nat) : List Nat :=
  match fuel, l with
  | _, [] => hs
  | 0, _ => hs
  | fuel + 1, l => compressAll fuel (compressBlock hs (l.take 64)) (l.drop 64)

def wordBytes (w : Nat) : List Nat :=
  [(w >>> 24) &&& 255, (w >>> 16) &&& 255, (w >>> 8) &&& 255, w &&& 255]

def sha256 (msg : List Nat) : List Nat :=
  let padded := shaPad msg
  ((compressAll padded.length shaH0 padded).map wordBytes).flatten

/-! ### Base64 (executable model of ion-js `toBase64`) -/

def b64Alphabet : List Char :=
  ['A', 'B', 'C', 'D', 'E', 'F', 'G', 'H', 'I', 'J', 'K', 'L', 'M',
   'N', 'O', 'P', 'Q', 'R', 'S', 'T', 'U', 'V', 'W', 'X', 'Y', 'Z',
   'a', 'b', 'c', 'd', 'e', 'f', 'g', 'h', 'i', 'j', 'k', 'l', 'm',
   'n', 'o', 'p', 'q', 'r', 's', 't', 'u', 'v', 'w', 'x', 'y', 'z',
   '0', '1', '2', '3', '4', '5', '6', '7', '8', '9', '+', '/']

def b64Char (n : Nat) : Char := b64Alphabet.getD n 'A'

def encode3 (a b c : Nat) : List Nat :=
  let n := a * 65536 + b * 256 + c
  [n / 262144, n / 4096 % 64, n / 64 % 64, n % 64]

def b64Groups : List Nat → List Char
  | a :: b :: c :: rest => (encode3 a b c).map b64Char ++ b64Groups rest
  | [a, b] => ((encode3 a b 0).take 3).map b64Char ++ ['=']
  | [a] => ((encode3 a 0 0).take 2).map b64Char ++ ['=', '=']
  | [] => []

def toBase64 (l : List Nat) : String := ⟨b64Groups l⟩

def b64CharInv (c : Char) : Nat := b64Alphabet.indexOf c

def b64Decode : List Char → Option (List Nat)
  | c0 :: c1 :: c2 :: c3 :: rest =>
    let s0 := b64CharInv c0
    let s1 := b64CharInv c1
    let s2 := b64CharInv c2
    let s3 := b64CharInv c3
    if c2 = '=' then
      if c3 = '=' ∧ rest = [] then some [s0 * 4 + s1 / 16] else none
    else if c3 = '=' then
      if rest = [] then some [s0 * 4 + s1 / 16, s1 % 16 * 16 + s2 / 4] else none
    else
      let n := s0 * 262144 + s1 * 4096 + s2 * 64 + s3
      match b64Decode rest with
      | some tail => some ([n / 65536 % 256, n / 256 % 256, n % 256] ++ tail)
      | none => none
  | [] => some []
  | _ => none

/-! ### Errors (`errors/Errors.ts`) and classification predicates

JavaScript errors are modelled as a flat sum.  The generic service errors
surfaced by the transport carry the `code` and `statusCode` fields the
classification predicates inspect; the driver's own error classes
(`ClientException`, `TransactionClosedError`, `SessionClosedError`,
`LambdaAbortedError`, `RangeError`, `StartTransactionError`) carry neither
field, so every classification predicate is false on them, exactly as
`e.code` / `e.statusCode` is `undefined` on those classes in the source.
`StartTransactionError` is imported by `QldbSession.ts` from an errors
module that is not part of the given sources; it is modelled from the spec
(§4.3: start-transaction failure surfaces as `StartTransactionError(cause)`)
as a distinct variant, with the cause tracked by the session interpreter. -/

inductive JsError where
  | rangeError (msg : String)
  | clientException (msg : String)
  | transactionClosed
  | sessionClosed
  | lambdaAborted
  | startTransactionError
  | aws (code : Option String) (statusCode : Option Nat)
deriving Repr, DecidableEq

deriving instance DecidableEq for Except

def JsError.errCode : JsError → Option String
  | .aws c _ => c
  | _ => none

def JsError.errStatus : JsError → Option Nat
  | .aws _ s => s
  | _ => none

def isInvalidSessionException (e : JsError) : Bool :=
  e.errCode == some "InvalidSessionException"

def isOccConflictException (e : JsError) : Bool :=
  e.errCode == some "OccConflictException"

def isRetriableException (e : JsError) : Bool :=
  e.errStatus == some 500 || e.errStatus == some 503 ||
  e.errCode == some "NoHttpResponseException" || e.errCode == some "SocketTimeoutException"

def isStartTxnErr : JsError → Bool
  | .startTransactionError => true
  | _ => false

def isLambdaAbortedErr : JsError → Bool
  | .lambdaAborted => true
  | _ => false

def exceptIsError {ε α : Type} : Except ε α → Bool
  | .error _ => true
  | .ok _ => false

/-! ### QldbHash (`QldbHash.ts`) -/

def HASH_SIZE : Nat := 32

/-- JavaScript sign extension `(x &lt;&lt; 24) &gt;&gt; 24` of a byte value. -/
def signedByte (x : Nat) : Int := if x < 128 then (x : Int) else (x : Int) - 256

/-- The first nonzero signed-byte difference between two equally long lists,
scanning from the head; `0` when no position differs. -/
def firstSignedDiff : List Nat → List Nat → Int
  | a :: as, b :: bs =>
    let d := signedByte a - signedByte b
    if d ≠ 0 then d else firstSignedDiff as bs
  | _, _ => 0

/-- `QldbHash._hashComparator`: throws `RangeError("Invalid hash.")` unless
both inputs are exactly `HASH_SIZE` bytes, then scans from index
`length - 1` down to `0` returning the first nonzero difference of the
sign-extended bytes. -/
def hashComparator (h1 h2 : List Nat) : Except JsError Int :=
  if h1.length ≠ HASH_SIZE ∨ h2.length ≠ HASH_SIZE then
    .error (.rangeError "Invalid hash.")
  else
    .ok (firstSignedDiff h1.reverse h2.reverse)

/-- `QldbHash._joinHashesPairwise`: an empty operand short-circuits to the
other operand; otherwise the comparator orders the pair, smaller first, and
the two are concatenated. -/
def joinHashesPairwise (h1 h2 : List Nat) : Except JsError (List Nat) :=
  if h1.length = 0 then .ok h2
  else if h2.length = 0 then .ok h1
  else
    match hashComparator h1 h2 with
    | .error e => .error e
    | .ok d => .ok (if d < 0 then h1 ++ h2 else h2 ++ h1)

/-- `QldbHash.dot`: sha256 of the pairwise join of the two hashes. -/
def dotBytes (h1 h2 : List Nat) : Except JsError (List Nat) :=
  match joinHashesPairwise h1 h2 with
  | .error e => .error e
  | .ok joined => .ok (sha256 joined)

structure QldbHash where
  bytes : List Nat
deriving Repr, DecidableEq

/-- The `QldbHash` constructor: throws when
`qldbHash.length !== HASH_SIZE || qldbHash.length === 0`. -/
def mkQldbHash (b : List Nat) : Except JsError QldbHash :=
  if b.length ≠ HASH_SIZE ∨ b.length = 0 then
    .error (.rangeError "Hash must be either empty or 32 bytes long.")
  else
    .ok ⟨b⟩

def QldbHash.isEmpty (h : QldbHash) : Bool := h.bytes.length = 0

/-- Total version of `dot` used inside the transaction model, where both
operands are always 32-byte sha256 outputs and the join can never throw. -/
def dotH (a b : List Nat) : List Nat :=
  match dotBytes a b with
  | .ok h => h
  | .error _ => []

/-- Modelled from the spec: `leaf(bytes)` — the external ion-hash-js
`makeHashReader(..., cryptoIonHasherProvider('sha256'))` digest called by
`QldbHash.toQldbHash`; the opaque value encoding is treated as the raw
bytes and the Ion hash as sha256 of them. -/
def toQldbHashBytes (v : List Nat) : List Nat := sha256 v

/-- Opaque injective byte encoding of a string (the external codec
boundary). -/
def encodeStr (s : String) : List Nat := s.data.map Char.toNat

/-- `QldbHash.toQldbHash` on a string value: the source wraps a bare string
in double quotes before hashing it. -/
def toQldbHashStr (s : String) : List Nat :=
  toQldbHashBytes (encodeStr ("\"" ++ s ++ "\""))

/-! ### Transaction (`Transaction.ts`) -/

structure Transaction where
  txnId : String
  isClosed : Bool
  resultStreams : Nat
  registeredParameters : List (Option (List Nat))
  txnHash : List Nat
deriving Repr, DecidableEq

/-- The `Transaction` constructor: open, no streams, no registered
parameters, hash seeded from `QldbHash.toQldbHash(txnId)`. -/
def Transaction.create (txnId : String) : Transaction :=
  { txnId := txnId, isClosed := false, resultStreams := 0,
    registeredParameters := [], txnHash := toQldbHashStr txnId }

/-- JavaScript sparse-array assignment `arr[i] = v`: missing slots between
the old length and `i` read back as `undefined`. -/
def setParamAt (l : List (Option (List Nat))) (i : Nat) (v : List Nat) :
    List (Option (List Nat)) :=
  (l ++ List.replicate (i + 1 - l.length) none).set i (some v)

/-- `Transaction.registerParameter`: rejects numbers below 1, then stores
the writer at slot `paramNumber - 1`.  The binary writer and its later
content are collapsed into the final content bytes. -/
def Transaction.registerParameter (t : Transaction) (paramNumber : Int)
    (content : List Nat) : Except JsError Transaction :=
  if paramNumber < 1 then
    .error (.clientException "The 1-based parameter number cannot be less than 1.")
  else
    .ok { t with registeredParameters :=
            setParamAt t.registeredParameters (paramNumber - 1).toNat content }

/-- `Transaction._findMissingParams`, returning the 1-based missing indices
as a list (the source renders them as a comma-separated string; the empty
string corresponds to the empty list). -/
def Transaction.findMissingParams (t : Transaction) : List Nat :=
  t.registeredParameters.enum.filterMap
    fun p => if p.2.isNone then some (p.1 + 1) else none

def missingParamsMsg (missing : List Nat) : String :=
  "Parameter #" ++ String.intercalate ", " (missing.map toString) ++ " is/are missing."

/-- `Transaction._updateHash`: fold the parameter leaf hashes into the
statement leaf hash left-to-right with `dot`, then `dot` the result into
the running chain. -/
def updateHash (chain : List Nat) (stmt : List Nat) (params : List (List Nat)) : List Nat :=
  dotH chain (params.foldl (fun acc p => dotH acc (toQldbHashBytes p)) (toQldbHashBytes stmt))

/-- `Transaction._internalClose`: mark closed and close every child result
stream. -/
def Transaction.internalClose (t : Transaction) : Transaction :=
  { t with isClosed := true, resultStreams := 0 }

/-- `Transaction._sendExecute` with the execute RPC outcome passed in:
closed check, missing-parameter check, `_updateHash` strictly before the
RPC, and the registered-parameter list cleared only after a successful
RPC. -/
def Transaction.sendExecute (t : Transaction) (stmt : List Nat)
    (rpc : Except JsError Unit) : Except JsError Unit × Transaction :=
  if t.isClosed then (.error .transactionClosed, t)
  else if t.findMissingParams ≠ [] then
    (.error (.clientException (missingParamsMsg t.findMissingParams)), t)
  else
    let t1 : Transaction :=
      { t with txnHash := updateHash t.txnHash stmt t.registeredParameters.reduceOption }
    match rpc with
    | .error e => (.error e, t1)
    | .ok _ => (.ok (), { t1 with registeredParameters := [] })

/-- `Transaction.abort` with the abort RPC outcome passed in: no-op when
closed, otherwise `_internalClose` first and then the abort RPC, whose
failure propagates.  The boolean records whether the abort RPC was
issued. -/
def Transaction.abort (t : Transaction) (rpc : Except JsError Unit) :
    Except JsError Unit × Transaction × Bool :=
  if t.isClosed then (.ok (), t, false)
  else (rpc, t.internalClose, true)

def mismatchMsg (txnId : String) : String :=
  "Transaction's commit digest did not match returned value from QLDB. " ++
  "Please retry with a new transaction. Transaction ID: " ++ txnId

structure CommitResult where
  res : Except JsError Unit
  txn : Transaction
  abortAttempted : Bool
  abortFailureWarned : Bool
deriving Repr, DecidableEq

/-- `Transaction.commit` with the commit RPC outcome (`.ok serverDigest` or
a thrown error) and the abort RPC outcome passed in.  A digest mismatch is
detected by comparing base64 renderings, raising `ClientException` with a
message naming the transaction id; the catch block rethrows OCC conflicts
directly and otherwise attempts an abort whose own failure is only
logged (`abortFailureWarned`); the finally block always runs
`_internalClose`. -/
def Transaction.commit (t : Transaction) (rpc : Except JsError (List Nat))
    (abortRpc : Except JsError Unit) : CommitResult :=
  if t.isClosed then ⟨.error .transactionClosed, t, false, false⟩
  else
    match rpc with
    | .ok serverDigest =>
      if toBase64 t.txnHash ≠ toBase64 serverDigest then
        ⟨.error (.clientException (mismatchMsg t.txnId)), t.internalClose, true,
         exceptIsError abortRpc⟩
      else
        ⟨.ok (), t.internalClose, false, false⟩
    | .error e =>
      if isOccConflictException e then ⟨.error e, t.internalClose, false, false⟩
      else ⟨.error e, t.internalClose, true, exceptIsError abortRpc⟩

/-! ### QldbSession retry loops

An attempt of `executeLambda` is described by what its RPCs and the user
lambda do at that attempt: the start-transaction RPC outcome, the lambda
outcome (returning an opaque value, modelled as `Nat`, or throwing), the
error `Transaction.commit` propagates (if any) when the lambda returned,
and the abort RPC outcome consumed by `_noThrowAbort`.  The interpreter
logs the observable events the spec counts: start-transaction attempts,
abort RPC attempts from `_noThrowAbort`, retry-indicator invocations and
backoff sleeps. -/

structure AttemptSpec where
  startRes : Except JsError String
  lambdaRes : Except JsError Nat
  commitRes : Option JsError
  abortRes : Except JsError Unit
deriving Repr, DecidableEq

structure SessionLog where
  starts : Nat
  aborts : Nat
  observerCalls : List Nat
  sleeps : Nat
deriving Repr, DecidableEq

def SessionLog.empty : SessionLog := ⟨0, 0, [], 0⟩

structure RunResult where
  res : Except JsError Nat
  log : SessionLog
  sessionClosed : Bool
deriving Repr, DecidableEq

/-- Where the try block of one loop iteration raises, if it does:
the raised error together with the transaction state at the catch
(`noTxn`: `transaction` is still `null` because `startTransaction` threw;
`openTxn`: the lambda threw with the transaction open; `closedTxn`:
`transaction.commit()` threw after internally closing the transaction). -/
inductive TxnPhase where
  | noTxn
  | openTxn
  | closedTxn
deriving Repr, DecidableEq

def attemptRaised (s : AttemptSpec) : Option (JsError × TxnPhase) :=
  match s.startRes with
  | .error _ => some (.startTransactionError, .noTxn)
  | .ok _ =>
    match s.lambdaRes with
    | .error e => some (e, .openTxn)
    | .ok _ =>
      match s.commitRes with
      | some e => some (e, .closedTxn)
      | none => none

def attemptValue (s : AttemptSpec) : Nat :=
  match s.lambdaRes with
  | .ok v => v
  | .error _ => 0

/-- The cause wrapped by `StartTransactionError` when the start RPC of the
attempt failed (used by the retry-policy loop's `throw e.cause`). -/
def startCause (s : AttemptSpec) : JsError :=
  match s.startRes with
  | .error e => e
  | .ok _ => .startTransactionError

/-- `QldbSession.executeLambda` of `src/src/QldbSession.ts` (the
retry-limit loop).  One iteration: count the start attempt; on success run
the lambda and commit; in the catch block rethrow `StartTransactionError`
and `LambdaAbortedError` immediately, close the session and rethrow on an
invalid-session error, run `_noThrowAbort` (an abort RPC only when the
transaction exists and is still open, its outcome swallowed), rethrow when
the retry limit is reached, and on an OCC-conflict or retriable error
increment the attempt, invoke the retry indicator, sleep and loop;
any other error is rethrown. -/
def executeLambdaV1Go (env : Nat → AttemptSpec) (retryLimit : Nat) (i : Nat)
    (retryAttempt : Nat) (log : SessionLog) (sessionClosed : Bool) : RunResult :=
  let s := env i
  let log1 : SessionLog := { log with starts := log.starts + 1 }
  match attemptRaised s with
  | none => ⟨.ok (attemptValue s), log1, sessionClosed⟩
  | some (e, phase) =>
    if isStartTxnErr e || isLambdaAbortedErr e then ⟨.error e, log1, sessionClosed⟩
    else if isInvalidSessionException e then ⟨.error e, log1, true⟩
    else
      let log2 : SessionLog :=
        if phase = .openTxn then { log1 with aborts := log1.aborts + 1 } else log1
      if h : retryAttempt ≥ retryLimit then ⟨.error e, log2, sessionClosed⟩
      else if isOccConflictException e || isRetriableException e then
        executeLambdaV1Go env retryLimit (i + 1) (retryAttempt + 1)
          { log2 with observerCalls := log2.observerCalls ++ [retryAttempt + 1],
                      sleeps := log2.sleeps + 1 }
          sessionClosed
      else ⟨.error e, log2, sessionClosed⟩
termination_by retryLimit - retryAttempt
decreasing_by simp_wf; omega

def executeLambdaV1 (env : Nat → AttemptSpec) (retryLimit : Nat) : RunResult :=
  executeLambdaV1Go env retryLimit 0 0 SessionLog.empty false

structure ExecutionContext where
  executionAttempt : Nat
  lastException : Option JsError
deriving Repr, DecidableEq

/-- `QldbSession.executeLambda` of the retry-policy variant.  One
iteration: count the start attempt; in the catch block close the session
and rethrow on an invalid-session error, record the last exception, run
`_noThrowAbort` (which issues the abort RPC directly when the transaction
is `null` and otherwise calls `transaction.abort()`, a no-op when the
transaction was closed by `commit`), rethrow `LambdaAbortedError`, at the
retry limit rethrow the `StartTransactionError` cause or the error itself,
and on an OCC-conflict or retriable error fall through the catch to
increment the execution attempt, sleep with the policy's backoff and loop;
any other error is rethrown. -/
def executeLambdaV2Go (env : Nat → AttemptSpec) (retryLimit : Nat) (i : Nat)
    (ctx : ExecutionContext) (log : SessionLog) (sessionClosed : Bool) : RunResult :=
  let s := env i
  let log1 : SessionLog := { log with starts := log.starts + 1 }
  match attemptRaised s with
  | none => ⟨.ok (attemptValue s), log1, sessionClosed⟩
  | some (e, phase) =>
    if isInvalidSessionException e then ⟨.error e, log1, true⟩
    else
      let ctx1 : ExecutionContext := { ctx with lastException := some e }
      let log2 : SessionLog :=
        if phase = .noTxn ∨ phase = .openTxn then { log1 with aborts := log1.aborts + 1 }
        else log1
      if isLambdaAbortedErr e then ⟨.error e, log2, sessionClosed⟩
      else if isStartTxnErr e = true ∧ ctx.executionAttempt ≥ retryLimit then
        ⟨.error (startCause s), log2, sessionClosed⟩
      else if h : ctx.executionAttempt ≥ retryLimit then ⟨.error e, log2, sessionClosed⟩
      else if isOccConflictException e || isRetriableException e then
        executeLambdaV2Go env retryLimit (i + 1)
          { ctx1 with executionAttempt := ctx.executionAttempt + 1 }
          { log2 with sleeps := log2.sleeps + 1 } sessionClosed
      else ⟨.error e, log2, sessionClosed⟩
termination_by retryLimit - ctx.executionAttempt
decreasing_by simp_wf; omega

def executeLambdaV2 (env : Nat → AttemptSpec) (retryLimit : Nat)
    (ctx : ExecutionContext) : RunResult :=
  executeLambdaV2Go env retryLimit 0 ctx SessionLog.empty false

/-! ### Sanity checks against published test vectors -/

example : sha256 [] =
    [227, 176, 196, 66, 152, 252, 28, 20, 154, 251,
     244, 200, 153, 111, 185, 36, 39, 174, 65, 228,
     100, 155, 147, 76, 164, 149, 153, 27, 120, 82,
     184, 85] := by
  decide

example : sha256 [97, 98, 99] =
    [186, 120, 22, 191, 143, 1, 207, 234, 65, 65,
     64, 222, 93, 174, 34, 35, 176, 3, 97, 163,
     150, 23, 122, 156, 180, 16, 255, 97, 242, 0,
     21, 173] := by
  decide

example : toBase64 [77, 97, 110] = "TWFu" := by decide

example : toBase64 [77, 97] = "TWE=" := by decide

example : toBase64 [77] = "TQ==" := by decide

/-! ### The signed-byte comparator -/

theorem signedByte_inj {x y : Nat} (hx : x < 256) (hy : y < 256)
    (h : signedByte x = signedByte y) : x = y := by
  unfold signedByte at h
  split at h <;> split at h <;> omega

theorem firstSignedDiff_antisymm (xs ys : List Nat) :
    firstSignedDiff xs ys = -firstSignedDiff ys xs := by
  induction xs generalizing ys with
  | nil => cases ys <;> simp [firstSignedDiff]
  | cons a as ih =>
    cases ys with
    | nil => simp [firstSignedDiff]
    | cons b bs =>
      simp only [firstSignedDiff]
      by_cases h : signedByte a - signedByte b = 0
      · have h2 : signedByte b - signedByte a = 0 := by omega
        simp [h, h2, ih bs]
      · have h2 : ¬(signedByte b - signedByte a = 0) := by omega
        simp [h, h2]

theorem firstSignedDiff_eq_zero_iff {xs ys : List Nat} (hlen : xs.length = ys.length)
    (hx : ∀ v ∈ xs, v < 256) (hy : ∀ v ∈ ys, v < 256) :
    firstSignedDiff xs ys = 0 ↔ xs = ys := by
  induction xs generalizing ys with
  | nil =>
    cases ys with
    | nil => simp [firstSignedDiff]
    | cons b bs => simp at hlen
  | cons a as ih =>
    cases ys with
    | nil => simp at hlen
    | cons b bs =>
      simp only [firstSignedDiff]
      by_cases h : signedByte a - signedByte b = 0
      · have hab : a = b :=
          signedByte_inj (hx a (by simp)) (hy b (by simp)) (by omega)
        have := @ih bs (by simpa using hlen)
          (fun v hv => hx v (by simp [hv])) (fun v hv => hy v (by simp [hv]))
        simp [h, hab, this]
      · have hab : a ≠ b := by
          intro hc
          exact h (by rw [hc]; omega)
        simp [h, hab]

theorem firstSignedDiff_neg_iff_lex {xs ys : List Nat} (hlen : xs.length = ys.length)
    (hx : ∀ v ∈ xs, v < 256) (hy : ∀ v ∈ ys, v < 256) :
    firstSignedDiff xs ys < 0 ↔
      List.Lex (fun p q : Int => p < q) (xs.map signedByte) (ys.map signedByte) := by
  induction xs generalizing ys with
  | nil =>
    cases ys with
    | nil =>
      simp only [firstSignedDiff, List.map_nil]
      constructor
      · omega
      · intro h
        exact absurd h (List.Lex.not_nil_right _ _)
    | cons b bs => simp at hlen
  | cons a as ih =>
    cases ys with
    | nil => simp at hlen
    | cons b bs =>
      simp only [firstSignedDiff, List.map_cons]
      have htail := @ih bs (by simpa using hlen)
        (fun v hv => hx v (by simp [hv])) (fun v hv => hy v (by simp [hv]))
      generalize hsa : signedByte a = sa at *
      generalize hsb : signedByte b = sb at *
      by_cases h : sa - sb = 0
      · have heq : sa = sb := by omega
        rw [if_neg (by simp [h]), heq]
        constructor
        · intro hfsd
          exact List.Lex.cons (htail.mp hfsd)
        · intro hlex
          cases hlex with
          | cons htl => exact htail.mpr htl
          | rel hrel => exact absurd hrel (lt_irrefl _)
      · rw [if_pos h]
        constructor
        · intro hlt
          exact List.Lex.rel (show sa < sb by omega)
        · intro hlex
          cases hlex with
          | cons htl => omega
          | rel hrel => omega

/-! ### Joining and dotting 32-byte hashes -/

theorem joinHashesPairwise_ok {a b : List Nat} (ha : a.length = 32) (hb : b.length = 32) :
    joinHashesPairwise a b =
      .ok (if firstSignedDiff a.reverse b.reverse < 0 then a ++ b else b ++ a) := by
  unfold joinHashesPairwise hashComparator
  rw [if_neg (show ¬(a.length = 0) by omega), if_neg (show ¬(b.length = 0) by omega),
    if_neg (show ¬(a.length ≠ HASH_SIZE ∨ b.length ≠ HASH_SIZE) by
      simp [ha, hb, HASH_SIZE])]

theorem dotBytes_ok {a b : List Nat} (ha : a.length = 32) (hb : b.length = 32) :
    dotBytes a b =
      .ok (sha256 (if firstSignedDiff a.reverse b.reverse < 0 then a ++ b else b ++ a)) := by
  unfold dotBytes
  rw [joinHashesPairwise_ok ha hb]

theorem firstSignedDiff_reverse_ne {a b : List Nat} (ha : a.length = 32) (hb : b.length = 32)
    (hva : ∀ v ∈ a, v < 256) (hvb : ∀ v ∈ b, v < 256) (hne : a ≠ b) :
    firstSignedDiff a.reverse b.reverse ≠ 0 := by
  intro hc
  have hrev := (firstSignedDiff_eq_zero_iff (by simp [ha, hb])
    (fun v hv => hva v (List.mem_reverse.mp hv))
    (fun v hv => hvb v (List.mem_reverse.mp hv))).mp hc
  exact hne (List.reverse_injective hrev)

/-! ### Injectivity of the base64 rendering -/

theorem b64Char_spec : ∀ n < 64, b64CharInv (b64Char n) = n ∧ b64Char n ≠ '=' := by decide

theorem b64Decode_b64Groups : ∀ l : List Nat, (∀ x ∈ l, x < 256) → b64Decode (b64Groups l) = some l
  | [], _ => rfl
  | [a], h => by
    have ha : a < 256 := h a (by simp)
    have h0 : a * 65536 / 262144 < 64 := by omega
    have h1 : a * 65536 / 4096 % 64 < 64 := by omega
    have hgroups : b64Groups [a] =
        [b64Char (a * 65536 / 262144), b64Char (a * 65536 / 4096 % 64), '=', '='] := by
      simp [b64Groups, encode3]
    have hdec : b64Decode [b64Char (a * 65536 / 262144), b64Char (a * 65536 / 4096 % 64), '=', '='] =
        some [b64CharInv (b64Char (a * 65536 / 262144)) * 4 +
          b64CharInv (b64Char (a * 65536 / 4096 % 64)) / 16] := rfl
    rw [hgroups, hdec, (b64Char_spec _ h0).1, (b64Char_spec _ h1).1]
    refine congrArg some (congrArg (fun x => [x]) ?_)
    omega
  | [a, b], h => by
    have ha : a < 256 := h a (by simp)
    have hb : b < 256 := h b (by simp)
    have h0 : (a * 65536 + b * 256) / 262144 < 64 := by omega
    have h1 : (a * 65536 + b * 256) / 4096 % 64 < 64 := by omega
    have h2 : (a * 65536 + b * 256) / 64 % 64 < 64 := by omega
    have hgroups : b64Groups [a, b] =
        [b64Char ((a * 65536 + b * 256) / 262144), b64Char ((a * 65536 + b * 256) / 4096 % 64),
         b64Char ((a * 65536 + b * 256) / 64 % 64), '='] := by
      simp [b64Groups, encode3]
    rw [hgroups]
    simp only [b64Decode]
    rw [if_neg (b64Char_spec _ h2).2]
    simp only [if_true]
    rw [(b64Char_spec _ h0).1, (b64Char_spec _ h1).1, (b64Char_spec _ h2).1]
    refine congrArg some ?_
    have e0 : (a * 65536 + b * 256) / 262144 * 4 + (a * 65536 + b * 256) / 4096 % 64 / 16 = a := by
      omega
    have e1 : (a * 65536 + b * 256) / 4096 % 64 % 16 * 16 + (a * 65536 + b * 256) / 64 % 64 / 4 = b := by
      omega
    rw [e0, e1]
  | a :: b :: c :: rest, h => by
    have ha : a < 256 := h a (by simp)
    have hb : b < 256 := h b (by simp)
    have hc : c < 256 := h c (by simp)
    have ih := b64Decode_b64Groups rest (fun x hx => h x (by simp [hx]))
    have h0 : (a * 65536 + b * 256 + c) / 262144 < 64 := by omega
    have h1 : (a * 65536 + b * 256 + c) / 4096 % 64 < 64 := by omega
    have h2 : (a * 65536 + b * 256 + c) / 64 % 64 < 64 := by omega
    have h3 : (a * 65536 + b * 256 + c) % 64 < 64 := by omega
    have hgroups : b64Groups (a :: b :: c :: rest) =
        b64Char ((a * 65536 + b * 256 + c) / 262144) :: b64Char ((a * 65536 + b * 256 + c) / 4096 % 64) ::
        b64Char ((a * 65536 + b * 256 + c) / 64 % 64) :: b64Char ((a * 65536 + b * 256 + c) % 64) ::
        b64Groups rest := by
      simp [b64Groups, encode3]
    rw [hgroups]
    simp only [b64Decode]
    rw [if_neg (b64Char_spec _ h2).2, if_neg (b64Char_spec _ h3).2]
    rw [(b64Char_spec _ h0).1, (b64Char_spec _ h1).1, (b64Char_spec _ h2).1, (b64Char_spec _ h3).1]
    rw [ih]
    refine congrArg some ?_
    have e0 : ((a * 65536 + b * 256 + c) / 262144 * 262144 + (a * 65536 + b * 256 + c) / 4096 % 64 * 4096 +
        (a * 65536 + b * 256 + c) / 64 % 64 * 64 + (a * 65536 + b * 256 + c) % 64) = a * 65536 + b * 256 + c := by
      omega
    rw [e0]
    have e1 : (a * 65536 + b * 256 + c) / 65536 % 256 = a := by omega
    have e2 : (a * 65536 + b * 256 + c) / 256 % 256 = b := by omega
    have e3 : (a * 65536 + b * 256 + c) % 256 = c := by omega
    rw [e1, e2, e3]
    simp

theorem toBase64_inj {a b : List Nat} (hva : ∀ x ∈ a, x < 256) (hvb : ∀ x ∈ b, x < 256)
    (h : toBase64 a = toBase64 b) : a = b := by
  have hg : b64Groups a = b64Groups b := congrArg String.data h
  have hr := b64Decode_b64Groups a hva
  rw [hg, b64Decode_b64Groups b hvb] at hr
  exact (Option.some.inj hr).symm

/-- C3: for all 32-byte hash values `a ≠ b`, `combine(a,b) = combine(b,a)`:
the internal sorting of the two operands before concatenation and hashing
makes `dot` commutative on its arguments. -/
theorem dot_commutative (a b : List Nat) (ha : a.length = 32) (hb : b.length = 32)
    (hva : ∀ v ∈ a, v < 256) (hvb : ∀ v ∈ b, v < 256) (hne : a ≠ b) :
    dotBytes a b = dotBytes b a := by
  have hdz := firstSignedDiff_reverse_ne ha hb hva hvb hne
  have hanti := firstSignedDiff_antisymm a.reverse b.reverse
  rw [dotBytes_ok ha hb, dotBytes_ok hb ha]
  rcases lt_trichotomy (firstSignedDiff a.reverse b.reverse) 0 with hlt | heq | hgt
  · rw [if_pos hlt, if_neg (show ¬(firstSignedDiff b.reverse a.reverse < 0) by omega)]
  · exact absurd heq hdz
  · rw [if_neg (show ¬(firstSignedDiff a.reverse b.reverse < 0) by omega),
      if_pos (show firstSignedDiff b.reverse a.reverse < 0 by omega)]

theorem dot_commutative_witness :
    dotBytes (List.replicate 32 0) (1 :: List.replicate 31 0) =
      dotBytes (1 :: List.replicate 31 0) (List.replicate 32 0) :=
  dot_commutative _ _ (by decide) (by decide) (by decide) (by decide) (by decide)

/-- C9: every constructible `QldbHash` holds exactly 32 bytes: the
constructor throws a `RangeError` for any input whose length is not 32
(the empty array included, since `0 ≠ 32` already fails the first check),
and `isEmpty` is false on every constructible instance. -/
theorem qldbHash_ctor_32 (b : List Nat) :
    (∀ h, mkQldbHash b = .ok h → b.length = 32 ∧ h.isEmpty = false) ∧
    (b.length ≠ 32 →
      mkQldbHash b = .error (.rangeError "Hash must be either empty or 32 bytes long.")) := by
  unfold mkQldbHash
  constructor
  · intro h hmk
    split at hmk
    · exact absurd hmk (by simp)
    · next hcond =>
      push_neg at hcond
      have hh : QldbHash.mk b = h := by
        simpa using hmk
      subst hh
      have h32 : b.length = 32 := by simpa [HASH_SIZE] using hcond.1
      refine ⟨h32, ?_⟩
      simp [QldbHash.isEmpty, h32]
  · intro hne
    rw [if_pos (Or.inl (by simpa [HASH_SIZE] using hne))]

theorem qldbHash_ctor_32_witness :
    mkQldbHash [] = .error (.rangeError "Hash must be either empty or 32 bytes long.") ∧
    ((List.replicate 32 0).length = 32 ∧ (QldbHash.mk (List.replicate 32 0)).isEmpty = false) :=
  ⟨(qldbHash_ctor_32 []).2 (by decide),
   (qldbHash_ctor_32 (List.replicate 32 0)).1 ⟨List.replicate 32 0⟩ (by decide)⟩

/-- C4 counterexample: an empty operand is not 32 bytes long, yet `dot`
raises no size error on it — `_joinHashesPairwise` short-circuits before
`_hashComparator` can check the sizes and returns the other operand. -/
theorem dot_empty_input_no_size_error :
    exceptIsError (dotBytes [] (List.replicate 32 0)) = false ∧
    joinHashesPairwise [] (List.replicate 32 0) = .ok (List.replicate 32 0) :=
  ⟨rfl, rfl⟩

/-- C4 (amended): for 32-byte inputs, `dot` orders the pair by the
signed-byte comparison from the highest index downward (equivalently,
lexicographic order of the sign-extended bytes read highest index first),
smaller first, and returns sha256 of the concatenation; the size-mismatch
`RangeError` is raised when both inputs are nonempty and either is not
exactly 32 bytes, while an empty input short-circuits to the other operand
without any size check. -/
theorem dot_signed_order_and_size_check :
    (∀ a b : List Nat, a.length = 32 → b.length = 32 →
      (∀ v ∈ a, v < 256) → (∀ v ∈ b, v < 256) →
      (List.Lex (fun p q : Int => p < q) (a.reverse.map signedByte) (b.reverse.map signedByte) →
        dotBytes a b = .ok (sha256 (a ++ b))) ∧
      (¬ List.Lex (fun p q : Int => p < q) (a.reverse.map signedByte) (b.reverse.map signedByte) →
        dotBytes a b = .ok (sha256 (b ++ a)))) ∧
    (∀ a b : List Nat, a ≠ [] → b ≠ [] → (a.length ≠ 32 ∨ b.length ≠ 32) →
      dotBytes a b = .error (.rangeError "Invalid hash.")) := by
  constructor
  · intro a b ha hb hva hvb
    have hiff := @firstSignedDiff_neg_iff_lex a.reverse b.reverse
      (by simp [ha, hb])
      (fun v hv => hva v (List.mem_reverse.mp hv))
      (fun v hv => hvb v (List.mem_reverse.mp hv))
    rw [dotBytes_ok ha hb]
    constructor
    · intro hlex
      rw [if_pos (hiff.mpr hlex)]
    · intro hlex
      rw [if_neg (fun hc => hlex (hiff.mp hc))]
  · intro a b hha hhb hlen
    unfold dotBytes joinHashesPairwise hashComparator
    rw [if_neg (by simpa using hha), if_neg (by simpa using hhb),
      if_pos (by simpa [HASH_SIZE] using hlen)]

theorem dot_signed_order_and_size_check_witness :
    dotBytes (List.replicate 32 0) (1 :: List.replicate 31 0) =
      .ok (sha256 (List.replicate 32 0 ++ (1 :: List.replicate 31 0))) ∧
    dotBytes (List.replicate 32 0) [1, 2, 3] = .error (.rangeError "Invalid hash.") :=
  ⟨((dot_signed_order_and_size_check.1 (List.replicate 32 0) (1 :: List.replicate 31 0)
      (by decide) (by decide) (by decide) (by decide)).1 (by decide)),
   dot_signed_order_and_size_check.2 (List.replicate 32 0) [1, 2, 3]
      (by decide) (by decide) (by decide)⟩

/-- C5 counterexample: combining the empty hash value with a 32-byte value
does not return that value — `dot` hashes the join result, so the result
is sha256 of the operand, not the operand. -/
theorem dot_empty_not_identity :
    dotBytes [] (List.replicate 32 0) ≠ .ok (List.replicate 32 0) := by
  decide

/-- C5 (amended): the empty value is an identity of the pairwise *join*
step only — `_joinHashesPairwise` with an empty operand returns the other
operand unchanged — but `dot` still hashes the join's result, so
`dot(empty, x) = sha256(x)` rather than `x`; moreover the `QldbHash`
constructor rejects the empty byte array, so no empty hash value is
constructible. -/
theorem join_empty_identity :
    (∀ x : List Nat, joinHashesPairwise [] x = .ok x ∧ joinHashesPairwise x [] = .ok x ∧
      dotBytes [] x = .ok (sha256 x)) ∧
    exceptIsError (mkQldbHash []) = true := by
  refine ⟨fun x => ?_, rfl⟩
  match x with
  | [] => exact ⟨rfl, rfl, rfl⟩
  | y :: ys => exact ⟨rfl, rfl, rfl⟩

/-- C1: when the commit RPC succeeds but the returned commit digest
differs from the locally computed digest, `commit` fails with the
`ClientException` whose message names the transaction id, attempts a
best-effort abort whose own failure is only logged
(`abortFailureWarned` mirrors the abort outcome while the result does
not depend on it), and leaves the transaction closed, not committed. -/
theorem commit_digest_mismatch (t : Transaction) (serverDigest : List Nat)
    (abortRpc : Except JsError Unit)
    (hopen : t.isClosed = false)
    (hvh : ∀ x ∈ t.txnHash, x < 256) (hvs : ∀ x ∈ serverDigest, x < 256)
    (hne : serverDigest ≠ t.txnHash) :
    (t.commit (.ok serverDigest) abortRpc).res =
        .error (.clientException (mismatchMsg t.txnId)) ∧
    (t.commit (.ok serverDigest) abortRpc).abortAttempted = true ∧
    (t.commit (.ok serverDigest) abortRpc).abortFailureWarned = exceptIsError abortRpc ∧
    (t.commit (.ok serverDigest) abortRpc).txn.isClosed = true ∧
    (t.commit (.ok serverDigest) abortRpc).res ≠ .ok () := by
  have hb : toBase64 t.txnHash ≠ toBase64 serverDigest :=
    fun hc => hne ((toBase64_inj hvh hvs hc).symm)
  have hred : t.commit (.ok serverDigest) abortRpc =
      if toBase64 t.txnHash ≠ toBase64 serverDigest then
        ⟨.error (.clientException (mismatchMsg t.txnId)), t.internalClose, true,
         exceptIsError abortRpc⟩
      else ⟨.ok (), t.internalClose, false, false⟩ := by
    unfold Transaction.commit
    rw [if_neg (by simp [hopen])]
  rw [hred, if_pos hb]
  exact ⟨rfl, rfl, rfl, rfl, by simp⟩

theorem commit_digest_mismatch_witness :
    (({ txnId := "tx1", isClosed := false, resultStreams := 0, registeredParameters := [],
        txnHash := List.replicate 32 0 : Transaction}.commit (.ok (List.replicate 32 1))
        (.error .sessionClosed)).res =
      .error (.clientException (mismatchMsg "tx1")) ∧
    ({ txnId := "tx1", isClosed := false, resultStreams := 0, registeredParameters := [],
        txnHash := List.replicate 32 0 : Transaction}.commit (.ok (List.replicate 32 1))
        (.error .sessionClosed)).abortAttempted = true ∧
    ({ txnId := "tx1", isClosed := false, resultStreams := 0, registeredParameters := [],
        txnHash := List.replicate 32 0 : Transaction}.commit (.ok (List.replicate 32 1))
        (.error .sessionClosed)).abortFailureWarned =
      exceptIsError (.error .sessionClosed : Except JsError Unit) ∧
    ({ txnId := "tx1", isClosed := false, resultStreams := 0, registeredParameters := [],
        txnHash := List.replicate 32 0 : Transaction}.commit (.ok (List.replicate 32 1))
        (.error .sessionClosed)).txn.isClosed = true ∧
    ({ txnId := "tx1", isClosed := false, resultStreams := 0, registeredParameters := [],
        txnHash := List.replicate 32 0 : Transaction}.commit (.ok (List.replicate 32 1))
        (.error .sessionClosed)).res ≠ .ok ()) :=
  commit_digest_mismatch _ _ _ rfl (by decide) (by decide) (by decide)

/-- C2: `_sendExecute` updates the running digest to
`dot(chain, fold(leaf(statement), leaf(param) for each param))` before the
execute RPC is dispatched — the digest equation holds whether or not the
RPC fails, a failing RPC propagates its error with the digest already
updated, and folding zero parameters leaves the statement leaf hash
unchanged. -/
theorem sendExecute_digest_updated_before_rpc (t : Transaction) (stmt : List Nat)
    (rpc : Except JsError Unit)
    (hopen : t.isClosed = false) (hnomiss : t.findMissingParams = []) :
    ((t.sendExecute stmt rpc).2.txnHash =
      dotH t.txnHash
        (t.registeredParameters.reduceOption.foldl
          (fun acc p => dotH acc (toQldbHashBytes p)) (toQldbHashBytes stmt))) ∧
    (∀ e, rpc = .error e → (t.sendExecute stmt rpc).1 = .error e) ∧
    (t.registeredParameters = [] →
      (t.sendExecute stmt rpc).2.txnHash = dotH t.txnHash (toQldbHashBytes stmt)) := by
  unfold Transaction.sendExecute
  rw [if_neg (by simp [hopen]), if_neg (by simp [hnomiss])]
  cases rpc with
  | error e =>
    refine ⟨rfl, ?_, ?_⟩
    · intro e2 he
      rw [← he]
    · intro hp
      simp [updateHash, hp]
  | ok u =>
    refine ⟨rfl, ?_, ?_⟩
    · intro e2 he
      exact absurd he (by simp)
    · intro hp
      simp [updateHash, hp]

theorem sendExecute_digest_updated_before_rpc_witness :
    (((Transaction.create "t1").sendExecute [7] (.error (.aws none (some 500)))).2.txnHash =
      dotH (Transaction.create "t1").txnHash
        ((Transaction.create "t1").registeredParameters.reduceOption.foldl
          (fun acc p => dotH acc (toQldbHashBytes p)) (toQldbHashBytes [7]))) ∧
    (((Transaction.create "t1").sendExecute [7] (.error (.aws none (some 500)))).1 =
      .error (.aws none (some 500))) ∧
    (((Transaction.create "t1").sendExecute [7] (.error (.aws none (some 500)))).2.txnHash =
      dotH (Transaction.create "t1").txnHash (toQldbHashBytes [7])) := by
  have h := sendExecute_digest_updated_before_rpc (Transaction.create "t1") [7]
    (.error (.aws none (some 500))) rfl rfl
  exact ⟨h.1, h.2.1 (.aws none (some 500)) rfl, h.2.2 rfl⟩

/-- C10: a successful execute clears the registered-parameter list, so the
next execute sends and hashes zero parameters unless parameters are
registered again, while an execute whose RPC fails leaves the
registered-parameter list unchanged even though the digest has already
been updated. -/
theorem sendExecute_clears_params_on_success_only (t : Transaction) (stmt : List Nat)
    (e : JsError) (hopen : t.isClosed = false) (hnomiss : t.findMissingParams = []) :
    ((t.sendExecute stmt (.ok ())).2.registeredParameters = []) ∧
    (∀ stmt2 rpc2,
      ((t.sendExecute stmt (.ok ())).2.sendExecute stmt2 rpc2).2.txnHash =
        dotH (t.sendExecute stmt (.ok ())).2.txnHash (toQldbHashBytes stmt2)) ∧
    ((t.sendExecute stmt (.error e)).2.registeredParameters = t.registeredParameters) ∧
    ((t.sendExecute stmt (.error e)).2.txnHash =
      updateHash t.txnHash stmt t.registeredParameters.reduceOption) := by
  have h1 : t.sendExecute stmt (.ok ()) =
      (.ok (),
        { t with
            txnHash := updateHash t.txnHash stmt t.registeredParameters.reduceOption
            registeredParameters := [] }) := by
    unfold Transaction.sendExecute
    rw [if_neg (by simp [hopen]), if_neg (by simp [hnomiss])]
  have h2 : t.sendExecute stmt (.error e) =
      (.error e, { t with txnHash := updateHash t.txnHash stmt t.registeredParameters.reduceOption }) := by
    unfold Transaction.sendExecute
    rw [if_neg (by simp [hopen]), if_neg (by simp [hnomiss])]
  refine ⟨by rw [h1], ?_, by rw [h2], by rw [h2]⟩
  intro stmt2 rpc2
  rw [h1]
  unfold Transaction.sendExecute
  rw [if_neg (by simp [hopen]), if_neg (by simp [Transaction.findMissingParams])]
  cases rpc2 <;> simp [updateHash]

theorem sendExecute_clears_params_on_success_only_witness :
    (((Transaction.create "t2").sendExecute [9] (.ok ())).2.registeredParameters = []) ∧
    ((((Transaction.create "t2").sendExecute [9] (.ok ())).2.sendExecute [4]
        (.ok ())).2.txnHash =
      dotH ((Transaction.create "t2").sendExecute [9] (.ok ())).2.txnHash
        (toQldbHashBytes [4])) ∧
    (((Transaction.create "t2").sendExecute [9] (.error .transactionClosed)).2.registeredParameters =
      (Transaction.create "t2").registeredParameters) ∧
    (((Transaction.create "t2").sendExecute [9] (.error .transactionClosed)).2.txnHash =
      updateHash (Transaction.create "t2").txnHash [9]
        (Transaction.create "t2").registeredParameters.reduceOption) := by
  have h := sendExecute_clears_params_on_success_only (Transaction.create "t2") [9]
    .transactionClosed rfl rfl
  exact ⟨h.1, h.2.1 [4] (.ok ()), h.2.2.1, h.2.2.2⟩

/-! ### The retry-limit loop (`src/src/QldbSession.ts`) -/

theorem retriable_not_instances {e : JsError}
    (h : (isOccConflictException e || isRetriableException e) = true) :
    isStartTxnErr e = false ∧ isLambdaAbortedErr e = false := by
  cases e <;> simp_all [isOccConflictException, isRetriableException, isStartTxnErr,
    isLambdaAbortedErr, JsError.errCode, JsError.errStatus]

theorem invalid_not_instances {e : JsError} (h : isInvalidSessionException e = true) :
    isStartTxnErr e = false ∧ isLambdaAbortedErr e = false := by
  cases e <;> simp_all [isInvalidSessionException, isStartTxnErr, isLambdaAbortedErr,
    JsError.errCode]

theorem v1_go_step (env : Nat → AttemptSpec) (L i a : Nat) (log : SessionLog) (closed : Bool)
    (t : String) (e : JsError)
    (hstart : (env i).startRes = .ok t)
    (hlam : (env i).lambdaRes = .error e)
    (hretry : (isOccConflictException e || isRetriableException e) = true)
    (hninv : isInvalidSessionException e = false)
    (haL : a < L) :
    executeLambdaV1Go env L i a log closed =
      executeLambdaV1Go env L (i + 1) (a + 1)
        { starts := log.starts + 1, aborts := log.aborts + 1,
          observerCalls := log.observerCalls ++ [a + 1], sleeps := log.sleeps + 1 } closed := by
  obtain ⟨hst, hlb⟩ := retriable_not_instances hretry
  conv_lhs => unfold executeLambdaV1Go
  simp only [attemptRaised, hstart, hlam, hst, hlb, hninv, Bool.or_self, Bool.false_eq_true,
    if_false]
  rw [dif_neg (by omega)]
  simp [hretry]

theorem v1_go_limit (env : Nat → AttemptSpec) (L i a : Nat) (log : SessionLog) (closed : Bool)
    (t : String) (e : JsError)
    (hstart : (env i).startRes = .ok t)
    (hlam : (env i).lambdaRes = .error e)
    (hretry : (isOccConflictException e || isRetriableException e) = true)
    (hninv : isInvalidSessionException e = false)
    (haL : a ≥ L) :
    executeLambdaV1Go env L i a log closed =
      ⟨.error e, { log with starts := log.starts + 1, aborts := log.aborts + 1 }, closed⟩ := by
  obtain ⟨hst, hlb⟩ := retriable_not_instances hretry
  conv_lhs => unfold executeLambdaV1Go
  simp only [attemptRaised, hstart, hlam, hst, hlb, hninv, Bool.or_self, Bool.false_eq_true,
    if_false]
  rw [dif_pos haL]
  simp

theorem v1_go_invalid (env : Nat → AttemptSpec) (L i a : Nat) (log : SessionLog) (closed : Bool)
    (t : String) (einv : JsError)
    (hstart : (env i).startRes = .ok t)
    (hlam : (env i).lambdaRes = .error einv)
    (hinv : isInvalidSessionException einv = true) :
    executeLambdaV1Go env L i a log closed =
      ⟨.error einv, { log with starts := log.starts + 1 }, true⟩ := by
  obtain ⟨hst, hlb⟩ := invalid_not_instances hinv
  conv_lhs => unfold executeLambdaV1Go
  simp only [attemptRaised, hstart, hlam, hst, hlb, hinv, Bool.or_self, Bool.false_eq_true,
    if_false, if_true]

theorem v1_go_advance (env : Nat → AttemptSpec) (L : Nat) (e : Nat → JsError) :
    ∀ n i a (log : SessionLog) (closed : Bool), a + n ≤ L →
    (∀ m, m < n → ∃ t, (env (i + m)).startRes = .ok t) →
    (∀ m, m < n → (env (i + m)).lambdaRes = .error (e (i + m))) →
    (∀ m, m < n → (isOccConflictException (e (i + m)) || isRetriableException (e (i + m))) = true) →
    (∀ m, m < n → isInvalidSessionException (e (i + m)) = false) →
    executeLambdaV1Go env L i a log closed =
      executeLambdaV1Go env L (i + n) (a + n)
        { starts := log.starts + n, aborts := log.aborts + n,
          observerCalls := log.observerCalls ++ List.range' (a + 1) n,
          sleeps := log.sleeps + n } closed := by
  intro n
  induction n with
  | zero =>
    intro i a log closed _ _ _ _ _
    simp [List.range']
  | succ n ih =>
    intro i a log closed hle hok hlam hretry hninv
    obtain ⟨t, ht⟩ := hok 0 (by omega)
    rw [v1_go_step env L i a log closed t (e i)
      (by simpa using ht) (by simpa using hlam 0 (by omega))
      (by simpa using hretry 0 (by omega)) (by simpa using hninv 0 (by omega)) (by omega)]
    rw [ih (i + 1) (a + 1) _ closed (by omega)
      (fun m hm => by
        have := hok (m + 1) (by omega)
        rwa [show i + (m + 1) = i + 1 + m by omega] at this)
      (fun m hm => by
        have := hlam (m + 1) (by omega)
        rwa [show i + (m + 1) = i + 1 + m by omega] at this)
      (fun m hm => by
        have := hretry (m + 1) (by omega)
        rwa [show i + (m + 1) = i + 1 + m by omega] at this)
      (fun m hm => by
        have := hninv (m + 1) (by omega)
        rwa [show i + (m + 1) = i + 1 + m by omega] at this)]
    rw [show i + 1 + n = i + (n + 1) by omega, show a + 1 + n = a + (n + 1) by omega]
    congr 1
    simp [List.range'_succ, List.append_assoc]
    omega

/-- C6: when the lambda throws a transport-classified retriable (or
OCC-conflict) error on every attempt, the retry-limit loop performs
exactly `L + 1` transaction-start attempts, invokes the retry indicator
(with attempts `1..L`) and the backoff sleep exactly `L` times, and
rethrows the error of the final attempt itself. -/
theorem retry_exhaustion_rethrows_last (env : Nat → AttemptSpec) (L : Nat) (e : Nat → JsError)
    (hok : ∀ k, ∃ t, (env k).startRes = .ok t)
    (hlam : ∀ k, (env k).lambdaRes = .error (e k))
    (hretry : ∀ k, (isOccConflictException (e k) || isRetriableException (e k)) = true)
    (hninv : ∀ k, isInvalidSessionException (e k) = false) :
    (executeLambdaV1 env L).res = .error (e L) ∧
    (executeLambdaV1 env L).log.starts = L + 1 ∧
    (executeLambdaV1 env L).log.observerCalls = List.range' 1 L ∧
    (executeLambdaV1 env L).log.sleeps = L := by
  obtain ⟨tL, htL⟩ := hok L
  have hadv := v1_go_advance env L e L 0 0 SessionLog.empty false (by omega)
    (fun m _ => by simpa using hok m) (fun m _ => by simpa using hlam m)
    (fun m _ => by simpa using hretry m) (fun m _ => by simpa using hninv m)
  unfold executeLambdaV1
  rw [hadv, v1_go_limit env L (0 + L) (0 + L) _ false tL (e (0 + L))
    (by simpa using htL) (by simpa using hlam L) (by simpa using hretry L)
    (by simpa using hninv L) (by omega)]
  simp [SessionLog.empty]

theorem retry_exhaustion_rethrows_last_witness :
    (executeLambdaV1 (fun _ => ⟨.ok "txnId", .error (.aws none (some 500)), none, .ok ()⟩) 2).res =
      .error (.aws none (some 500)) ∧
    (executeLambdaV1 (fun _ => ⟨.ok "txnId", .error (.aws none (some 500)), none, .ok ()⟩) 2).log.starts =
      2 + 1 ∧
    (executeLambdaV1 (fun _ => ⟨.ok "txnId", .error (.aws none (some 500)), none, .ok ()⟩) 2).log.observerCalls =
      List.range' 1 2 ∧
    (executeLambdaV1 (fun _ => ⟨.ok "txnId", .error (.aws none (some 500)), none, .ok ()⟩) 2).log.sleeps =
      2 :=
  retry_exhaustion_rethrows_last _ 2 (fun _ => .aws none (some 500))
    (fun _ => ⟨"txnId", rfl⟩) (fun _ => rfl) (fun _ => rfl) (fun _ => rfl)

/-- C7: when an attempt inside the retry loop fails with an
invalid-session-classified error (after `k ≤ L` retriable failures), the
loop exits immediately with no further attempts, the session is marked
permanently closed, and the error propagates to the caller unchanged. -/
theorem invalid_session_closes_and_propagates (env : Nat → AttemptSpec) (L k : Nat)
    (e : Nat → JsError) (einv : JsError) (t : String)
    (hkL : k ≤ L)
    (hok0 : ∀ m, m < k → ∃ u, (env m).startRes = .ok u)
    (hlam0 : ∀ m, m < k → (env m).lambdaRes = .error (e m))
    (hretry0 : ∀ m, m < k → (isOccConflictException (e m) || isRetriableException (e m)) = true)
    (hninv0 : ∀ m, m < k → isInvalidSessionException (e m) = false)
    (hstartk : (env k).startRes = .ok t)
    (hlamk : (env k).lambdaRes = .error einv)
    (hinv : isInvalidSessionException einv = true) :
    (executeLambdaV1 env L).res = .error einv ∧
    (executeLambdaV1 env L).sessionClosed = true ∧
    (executeLambdaV1 env L).log.starts = k + 1 ∧
    (executeLambdaV1 env L).log.sleeps = k := by
  have hadv := v1_go_advance env L e k 0 0 SessionLog.empty false (by omega)
    (fun m hm => by simpa using hok0 m hm) (fun m hm => by simpa using hlam0 m hm)
    (fun m hm => by simpa using hretry0 m hm) (fun m hm => by simpa using hninv0 m hm)
  unfold executeLambdaV1
  rw [hadv, v1_go_invalid env L (0 + k) (0 + k) _ false t einv (by simpa using hstartk)
    (by simpa using hlamk) hinv]
  simp [SessionLog.empty]

theorem invalid_session_closes_and_propagates_witness :
    (executeLambdaV1
      (fun _ => ⟨.ok "txnId", .error (.aws (some "InvalidSessionException") none), none, .ok ()⟩)
      4).res = .error (.aws (some "InvalidSessionException") none) ∧
    (executeLambdaV1
      (fun _ => ⟨.ok "txnId", .error (.aws (some "InvalidSessionException") none), none, .ok ()⟩)
      4).sessionClosed = true ∧
    (executeLambdaV1
      (fun _ => ⟨.ok "txnId", .error (.aws (some "InvalidSessionException") none), none, .ok ()⟩)
      4).log.starts = 0 + 1 ∧
    (executeLambdaV1
      (fun _ => ⟨.ok "txnId", .error (.aws (some "InvalidSessionException") none), none, .ok ()⟩)
      4).log.sleeps = 0 :=
  invalid_session_closes_and_propagates _ 4 0 (fun _ => .aws none none) _ "txnId" (by omega)
    (fun m hm => absurd hm (by omega)) (fun m hm => absurd hm (by omega))
    (fun m hm => absurd hm (by omega)) (fun m hm => absurd hm (by omega)) rfl rfl (by decide)

theorem v1_go_lambda_aborted (env : Nat → AttemptSpec) (L i a : Nat) (log : SessionLog)
    (closed : Bool) (t : String)
    (hstart : (env i).startRes = .ok t)
    (hlam : (env i).lambdaRes = .error .lambdaAborted) :
    executeLambdaV1Go env L i a log closed =
      ⟨.error .lambdaAborted, { log with starts := log.starts + 1 }, closed⟩ := by
  conv_lhs => unfold executeLambdaV1Go
  simp [attemptRaised, hstart, hlam, isLambdaAbortedErr, isStartTxnErr]

/-- C8 counterexample: in the retry-limit loop of `src/src/QldbSession.ts`
a lambda raising the lambda-aborted signal on an open transaction is
rethrown immediately with zero abort RPC attempts — no best-effort abort
happens, contrary to the claim. -/
theorem v1_lambda_aborted_skips_abort :
    (executeLambdaV1 (fun _ => ⟨.ok "txnId", .error .lambdaAborted, none, .ok ()⟩) 4).res =
      .error .lambdaAborted ∧
    (executeLambdaV1 (fun _ => ⟨.ok "txnId", .error .lambdaAborted, none, .ok ()⟩) 4).log.aborts =
      0 ∧
    (executeLambdaV1 (fun _ => ⟨.ok "txnId", .error .lambdaAborted, none, .ok ()⟩) 4).log.starts =
      1 := by
  unfold executeLambdaV1
  rw [v1_go_lambda_aborted _ 4 0 0 SessionLog.empty false "txnId" rfl rfl]
  simp [SessionLog.empty]

/-- C8 (amended): in the retry-policy `executeLambda`, a lambda-aborted
error triggers the best-effort abort of the open transaction — one abort
RPC attempt whose outcome (including failure) is swallowed — and is then
rethrown to the caller with no retry; the retry-limit loop of
`src/src/QldbSession.ts` instead rethrows it immediately without the
abort. -/
theorem v2_lambda_aborted_aborts_then_rethrows (env : Nat → AttemptSpec) (L : Nat)
    (ctx : ExecutionContext) (t : String)
    (hstart : (env 0).startRes = .ok t)
    (hlam : (env 0).lambdaRes = .error .lambdaAborted) :
    executeLambdaV2 env L ctx =
      ⟨.error .lambdaAborted, { starts := 1, aborts := 1, observerCalls := [], sleeps := 0 },
       false⟩ := by
  unfold executeLambdaV2
  conv_lhs => unfold executeLambdaV2Go
  simp [attemptRaised, hstart, hlam, isInvalidSessionException, JsError.errCode,
    isLambdaAbortedErr, SessionLog.empty]

theorem v2_lambda_aborted_aborts_then_rethrows_witness :
    executeLambdaV2 (fun _ => ⟨.ok "txnId", .error .lambdaAborted, none, .error .sessionClosed⟩)
      4 ⟨0, none⟩ =
      ⟨.error .lambdaAborted, { starts := 1, aborts := 1, observerCalls := [], sleeps := 0 },
       false⟩ :=
  v2_lambda_aborted_aborts_then_rethrows _ 4 ⟨0, none⟩ "txnId" rfl rfl

theorem join_empty_identity_witness :
    (joinHashesPairwise [] [5, 6] = .ok [5, 6] ∧ joinHashesPairwise [5, 6] [] = .ok [5, 6] ∧
      dotBytes [] [5, 6] = .ok (sha256 [5, 6])) ∧
    exceptIsError (mkQldbHash []) = true :=
  ⟨join_empty_identity.1 [5, 6], join_empty_identity.2⟩
